import Mathlib

/- Verification development for the PDFlex upload-ingestion and transient-file
lifecycle core (`src/main.py`): the extension policy validator
(`validar_extension`), the bounded stream writer (`guardar_con_limite`), the
cleanup routine (`borrar_archivos`) and the operation orchestrators
(`api_unir`, `api_comprimir`, `api_img2pdf`, `api_extraer`), shallowly embedded
as pure Lean functions.  Byte streams are `List Nat`, the filesystem is the
list of existing paths, and the fallible external collaborators (pypdf,
zipfile, img2pdf) are modelled by explicit outcome parameters. -/

/-- Error taxonomy of the source: `invalidExtension` is the
`HTTPException(400, "Extensión no permitida: ...")` raised by
`validar_extension`, `sizeLimit` the `HTTPException(413, ...)` raised by
`guardar_con_limite`, `invalidRange` the `HTTPException(400, "Rango
inválido...")` of `api_extraer`, and `transformFailure` any exception raised
by the external pypdf/zipfile/img2pdf collaborators. -/
inductive AppErr where
  | invalidExtension (ext : String)
  | sizeLimit
  | invalidRange
  | transformFailure
deriving DecidableEq

set_option maxRecDepth 40000

deriving instance DecidableEq for Except

/-- `MAX_MB_PER_FILE = 30` from `src/main.py`. -/
def MAX_MB_PER_FILE : Nat := 30

/-- `ALLOWED_EXTENSIONS = {".pdf", ".jpg", ".jpeg", ".png"}` from
`src/main.py`; the Python set is modelled as a list, only membership is
used. -/
def ALLOWED_EXTENSIONS : List String := [".pdf", ".jpg", ".jpeg", ".png"]

/-- The basename of a POSIX path: the characters after the last `/`
separator (the whole string when no separator occurs), as used by
`os.path.splitext` on Linux. -/
def basenameOf (cs : List Char) : List Char :=
  (cs.reverse.takeWhile (fun c => c != '/')).reverse

/-- The extension part `os.path.splitext(filename)[1]` (CPython
`genericpath._splitext` with `sep='/'`, no `altsep`, `extsep='.'`): the
suffix of the basename starting at its last dot, provided some character
strictly before that dot inside the basename is not itself a dot (leading
dots of the basename never start an extension); otherwise the empty
string. -/
def splitextExt (s : String) : String :=
  let b := basenameOf s.data
  let r := b.reverse
  let extRev := r.takeWhile (fun c => c != '.')
  if extRev.length = r.length then ""
  else if (r.drop (extRev.length + 1)).any (fun c => c != '.') then
    String.mk ('.' :: extRev.reverse)
  else ""

/-- `os.path.splitext(filename)[1].lower()` as computed at line 44 of
`src/main.py`.  `Char.toLower` agrees with Python `str.lower` on the ASCII
filenames and extension sets this program deals with. -/
def lowerExt (filename : String) : String :=
  String.mk ((splitextExt filename).data.map Char.toLower)

/-- `validar_extension` (src/main.py lines 43-47): extract the lowercased
suffix; raise `HTTPException(400)` when it is not in the allowed set,
otherwise return it.  The function is pure (no filesystem effect). -/
def validar_extension (filename : String) (permitidas : List String) :
    Except AppErr String :=
  let ext := lowerExt filename
  if ext ∈ permitidas then Except.ok ext
  else Except.error (AppErr.invalidExtension ext)

/-- `upload_file.file.read(1024 * 1024)` chunk size of `guardar_con_limite`
(src/main.py line 69). -/
def CHUNK_SIZE : Nat := 1024 * 1024

/-- Outcome of `guardar_con_limite` on one destination path: `dest` is the
content of the destination file after the call (`none` = the path does not
exist), `err` is the raised exception, if any. -/
structure GuardarResult where
  dest : Option (List Nat)
  err : Option AppErr
deriving DecidableEq

/-- The `while True` loop of `guardar_con_limite` (src/main.py lines 68-78):
read one chunk of at most `CHUNK_SIZE` bytes; an empty read ends the loop
with the destination containing the bytes written so far (`buffer`); else add
the chunk length to the running total and, if it exceeds the limit, delete
the partially written destination and raise 413; otherwise append the chunk
and continue.  A stream is a `List Nat` of bytes, so a read returns empty
exactly at end of stream, as for a real file object. -/
def guardarLoop : List Nat → Nat → Nat → List Nat → GuardarResult
  | [], _, _, buffer => ⟨some buffer, none⟩
  | x :: xs, limit, fileSize, buffer =>
    let chunk := (x :: xs).take CHUNK_SIZE
    let fs2 := fileSize + chunk.length
    if fs2 > limit then ⟨none, some AppErr.sizeLimit⟩
    else guardarLoop ((x :: xs).drop CHUNK_SIZE) limit fs2 (buffer ++ chunk)
termination_by data _ _ _ => data.length
decreasing_by simp [CHUNK_SIZE, List.length_drop]; omega

/-- `guardar_con_limite` (src/main.py lines 59-78) on a stream `data`:
`limit_bytes = max_mb * 1024 * 1024`, running total starts at 0, the
destination starts empty (the file is created by `open(destino_path,
"wb")`). -/
def guardar_con_limite (data : List Nat) (max_mb : Nat) : GuardarResult :=
  guardarLoop data (max_mb * 1024 * 1024) 0 []

/-- The page-range logic of `api_extraer` (src/main.py lines 232-240):
`total_pages = len(reader.pages)`; raise `HTTPException(400, "Rango
inválido...")` when `inicio < 1 or fin > total_pages or inicio > fin`;
otherwise the writer receives `reader.pages[i]` for
`i in range(inicio - 1, fin)`, i.e. the 1-indexed pages `inicio..fin`.
Pages are abstract (modelled as `Nat` identifiers); `inicio` and `fin` come
from `Form(...)` as Python ints, hence `Int`. -/
def api_extraer_rango (pages : List Nat) (inicio fin : Int) :
    Except AppErr (List Nat) :=
  let total_pages : Int := pages.length
  if inicio < 1 ∨ fin > total_pages ∨ inicio > fin then
    Except.error AppErr.invalidRange
  else
    Except.ok ((pages.drop (inicio - 1).toNat).take (fin - inicio + 1).toNat)

/- IEEE-754 binary64 model.  `api_comprimir` computes
`int((ahorro / total_orig) * 100)`: CPython evaluates `int / int` as the
correctly rounded (round-to-nearest, ties-to-even) binary64 value of the
exact quotient, promotes `100` exactly and multiplies with correct binary64
rounding, and `int(...)` truncates toward zero.  A finite double is
represented as a pair `(m, e) : Int × Int` with value `m * 2 ^ e`; rounding
normalises the mantissa into `[2^52, 2^53)` (or to fixed exponent `-1074`
for subnormal magnitudes).  The magnitudes arising in the percentage
computation stay far below the overflow threshold `2^1024`, so no infinity
case is needed. -/

/-- Fuel-driven floor of the base-2 logarithm; `log2F n n` computes
`Nat.log2 n` by structural recursion so that concrete values reduce inside
kernel proofs. -/
def log2F : Nat → Nat → Nat
  | 0, _ => 0
  | fuel + 1, n => if 2 ≤ n then log2F fuel (n / 2) + 1 else 0

/-- `nlog2 n` is the floor of `log2 n` for `n ≥ 1`. -/
def nlog2 (n : Nat) : Nat := log2F n n

/-- Decides `2 ^ k ≤ a / d` for the exact rational `a / d` and an integer
exponent `k`. -/
def pow2LE (k : Int) (a d : Nat) : Bool :=
  if 0 ≤ k then decide (d * 2 ^ k.toNat ≤ a)
  else decide (d ≤ a * 2 ^ (-k).toNat)

/-- Floor of the base-2 logarithm of the positive rational `a / d`
(`a, d ≥ 1`). -/
def floorLog2Rat (a d : Nat) : Int :=
  let g : Int := (nlog2 a : Int) - (nlog2 d : Int)
  if pow2LE g a d then g else g - 1

/-- Numerator and denominator of `(a / d) * 2 ^ (-x)` as a fraction of
naturals. -/
def scaleND (a d : Nat) (x : Int) : Nat × Nat :=
  if 0 ≤ x then (a, d * 2 ^ x.toNat) else (a * 2 ^ (-x).toNat, d)

/-- Round the nonnegative rational `N / D` to the nearest integer, ties to
even. -/
def rneMant (N D : Nat) : Nat :=
  let q := N / D
  let r := N % D
  if D < 2 * r then q + 1 else if 2 * r < D then q else q + q % 2

/-- Round the positive rational `(a / d) * 2 ^ shift` to binary64: returns
`(m, e)` with rounded value `m * 2 ^ e`, mantissa normalised into
`[2^52, 2^53)`, or denormalised at fixed exponent `-1074` when the value is
below `2^-1022`. -/
def roundPos (a d : Nat) (shift : Int) : Nat × Int :=
  let k := floorLog2Rat a d + shift
  if k < -1022 then
    let nd := scaleND a d (-1074 - shift)
    (rneMant nd.1 nd.2, -1074)
  else
    let e := k - 52
    let nd := scaleND a d (e - shift)
    let m := rneMant nd.1 nd.2
    if m = 2 ^ 53 then (2 ^ 52, e + 1) else (m, e)

/-- A finite binary64 value `m * 2 ^ e` (sign carried by the mantissa). -/
def FP : Type := Int × Int

/-- Round the rational `(n / d) * 2 ^ shift` (signed numerator) to
binary64. -/
def fpRound (n : Int) (d : Nat) (shift : Int) : FP :=
  if n = 0 then ((0 : Int), (0 : Int))
  else
    let p := roundPos n.natAbs d shift
    (if n < 0 then -(p.1 : Int) else (p.1 : Int), p.2)

/-- Python `int / int` true division: the correctly rounded binary64 value
of the exact quotient (`d ≠ 0` in every use, guarded by the
`total_orig > 0` test in the source). -/
def fpDivInt (n : Int) (d : Nat) : FP := fpRound n d 0

/-- Exact conversion of a small natural (here the literal `100`) to
binary64. -/
def fpOfNat (n : Nat) : FP := fpRound (n : Int) 1 0

/-- Binary64 multiplication: exact product, then one correct rounding. -/
def fpMul (x y : FP) : FP := fpRound (x.1 * y.1) 1 (x.2 + y.2)

/-- Python `int(x)` on a float: truncation toward zero. -/
def fpTrunc (x : FP) : Int :=
  if 0 ≤ x.2 then x.1 * 2 ^ x.2.toNat
  else if 0 ≤ x.1 then (x.1.toNat / 2 ^ (-x.2).toNat : Nat)
  else -((-x.1).toNat / 2 ^ (-x.2).toNat : Nat)

/-- The savings percentage computed at src/main.py lines 169-170:
`ahorro = total_orig - total_comp;`
`porcentaje = int((ahorro / total_orig) * 100) if total_orig > 0 else 0`,
with Python float semantics embedded per the binary64 model above. -/
def porcentajeFloat (total_orig total_comp : Nat) : Int :=
  if 0 < total_orig then
    fpTrunc (fpMul (fpDivInt ((total_orig : Int) - (total_comp : Int)) total_orig)
      (fpOfNat 100))
  else 0

/-- `UPLOAD_DIR = "temp_uploads"` from `src/main.py`. -/
def UPLOAD_DIR : String := "temp_uploads"

/-- `OUTPUT_DIR = "temp_outputs"` from `src/main.py`. -/
def OUTPUT_DIR : String := "temp_outputs"

/-- `os.path.join` for the relative POSIX directories used here. -/
def pathJoin (dir name : String) : String := dir ++ "/" ++ name

/-- The filesystem is the list of currently existing paths.  Creating a file
(`open(path, "wb")`, `zipfile.ZipFile(path, "w")`, `merger.write(path)`)
adds its path. -/
def fsCreate (fs : List String) (p : String) : List String :=
  if p ∈ fs then fs else fs ++ [p]

/-- `os.remove(path)` preceded by the `os.path.exists` test: removing an
absent path is a no-op. -/
def fsRemove (fs : List String) (p : String) : List String :=
  fs.filter (fun q => q != p)

/-- `borrar_archivos` (src/main.py lines 49-57): best-effort removal of each
path in the list, missing files skipped. -/
def borrar_archivos (fs : List String) (paths : List String) : List String :=
  paths.foldl fsRemove fs

/-- One uploaded file of a merge request together with its per-file oracle
values: `name` is the `uuid.uuid4().hex` drawn for it at line 101, and
`appendOk` tells whether the external `merger.append(safe_path)` call at
line 106 succeeds (pypdf raises on e.g. a malformed document). -/
structure UStep where
  filename : String
  data : List Nat
  name : String
  appendOk : Bool
deriving DecidableEq

/-- Outcome of an output-writing step (`merger.write(output_path)`,
`writer.write(f)` after `open(output_path, "wb")`, or the
`zipfile.ZipFile(final_path, "w")` block): `ok` = written completely;
`failCreated` = the destination was created (opened / partially written)
and then an exception was raised, e.g. an I/O error mid-write;
`failNoFile` = an exception was raised before the destination existed. -/
inductive WriteOut where
  | ok
  | failCreated
  | failNoFile
deriving DecidableEq

/-- State threaded through the per-file loop of `api_unir`: the filesystem,
the `temp_paths` deletion list of line 93, and the trace of every path that
the request has created (and that survived its creating call). -/
structure RunState where
  fs : List String
  temp_paths : List String
  created : List String
deriving DecidableEq

/-- Terminal observation of a request: final filesystem (after any cleanup
ran to completion), HTTP status of the response, the creation trace, and
`cleaned` = the path list handed to `borrar_archivos` in the taken
branch. -/
structure RunResult where
  fs : List String
  status : Nat
  created : List String
  cleaned : List String
deriving DecidableEq

/-- `safe_path = os.path.join(UPLOAD_DIR, f"{uuid.uuid4().hex}.pdf")`
(src/main.py lines 101-102); note the user-supplied filename does not
occur. -/
def unirSafePath (f : UStep) : String := pathJoin UPLOAD_DIR (f.name ++ ".pdf")

/-- The `for file in files` loop of `api_unir` (src/main.py lines 98-106):
validate the extension against `{".pdf"}`, persist via
`guardar_con_limite` (which deletes its own partial file on overflow),
append `safe_path` to `temp_paths`, then call the fallible
`merger.append`. -/
def unirLoop : List UStep → RunState → RunState × Option AppErr
  | [], st => (st, none)
  | f :: rest, st =>
    match validar_extension f.filename [".pdf"] with
    | Except.error e => (st, some e)
    | Except.ok _ =>
      let safe_path := unirSafePath f
      match (guardar_con_limite f.data MAX_MB_PER_FILE).err with
      | some e => (st, some e)
      | none =>
        let st2 : RunState :=
          ⟨fsCreate st.fs safe_path, st.temp_paths ++ [safe_path],
            st.created ++ [safe_path]⟩
        if f.appendOk then unirLoop rest st2
        else (st2, some AppErr.transformFailure)

/-- `output_path = os.path.join(OUTPUT_DIR, f"Unido_{uuid.uuid4().hex}.pdf")`
(src/main.py lines 94-95). -/
def unirOutputPath (outName : String) : String :=
  pathJoin OUTPUT_DIR ("Unido_" ++ outName ++ ".pdf")

/-- `api_unir` (src/main.py lines 87-116).  Empty file list: immediate 400.
Otherwise run the ingestion loop; on any exception the handler calls
`borrar_archivos(temp_paths)` synchronously and returns a 500 JSON body
(the blanket `except Exception` catches the `HTTPException`s raised
inside, so their 400/413 codes never reach the client).  On success
`merger.write(output_path)` runs (outcome `wout`), the background task
`borrar_archivos(temp_paths + [output_path])` is scheduled and, the
response being served, eventually runs; the final filesystem is observed
after it completes. -/
def api_unir (files : List UStep) (outName : String) (wout : WriteOut)
    (fs0 : List String) : RunResult :=
  if files = [] then ⟨fs0, 400, [], []⟩
  else
    let output_path := unirOutputPath outName
    let r := unirLoop files ⟨fs0, [], []⟩
    match r.2 with
    | some _ =>
      ⟨borrar_archivos r.1.fs r.1.temp_paths, 500, r.1.created, r.1.temp_paths⟩
    | none =>
      match wout with
      | WriteOut.ok =>
        let todo := r.1.temp_paths ++ [output_path]
        ⟨borrar_archivos (fsCreate r.1.fs output_path) todo, 200,
          r.1.created ++ [output_path], todo⟩
      | WriteOut.failCreated =>
        ⟨borrar_archivos (fsCreate r.1.fs output_path) r.1.temp_paths, 500,
          r.1.created ++ [output_path], r.1.temp_paths⟩
      | WriteOut.failNoFile =>
        ⟨borrar_archivos r.1.fs r.1.temp_paths, 500, r.1.created,
          r.1.temp_paths⟩

/-- Per-file outcome of the pypdf read/compress/write work in
`api_comprimir` (src/main.py lines 140-152): `ok compSize` = the compressed
output was fully written with `compSize` bytes; `readFail` = pypdf raised
before `open(output_path, "wb")` ran (no output file exists); `writeFail` =
the output file was created by `open` and the write then raised. -/
inductive StepOut where
  | ok (compSize : Nat)
  | readFail
  | writeFail
deriving DecidableEq

/-- The output byte size carried by a successful per-file transform
outcome. -/
def compSizeOf : StepOut → Nat
  | StepOut.ok n => n
  | _ => 0

/-- One uploaded file of a compress request with its oracles: `name` the
uuid for the input path (line 133), `outName` the uuid for the `Mini_`
output (line 148), `tout` the transform outcome. -/
structure CStep where
  filename : String
  data : List Nat
  name : String
  outName : String
  tout : StepOut
deriving DecidableEq

/-- State of the `api_comprimir` loop: filesystem, creation trace,
`temp_inputs` and `processed_files` deletion lists, and the two byte-size
accumulators of lines 126-127. -/
structure CState where
  fs : List String
  created : List String
  temp_inputs : List String
  processed : List String
  total_orig : Nat
  total_comp : Nat
deriving DecidableEq

/-- Terminal observation of a compress request; `inputs` is the final
`temp_inputs` list and `percent` the `X-Savings-Percent` value (absent on
failure responses). -/
structure CRunResult where
  fs : List String
  status : Nat
  created : List String
  cleaned : List String
  inputs : List String
  percent : Option Int
deriving DecidableEq

/-- `input_path = os.path.join(UPLOAD_DIR, f"{uuid.uuid4().hex}.pdf")`
(src/main.py lines 133-134). -/
def comprimirInputPath (f : CStep) : String :=
  pathJoin UPLOAD_DIR (f.name ++ ".pdf")

/-- `output_path = os.path.join(OUTPUT_DIR, f"Mini_{uuid.uuid4().hex}.pdf")`
(src/main.py lines 148-149). -/
def comprimirOutputPath (f : CStep) : String :=
  pathJoin OUTPUT_DIR ("Mini_" ++ f.outName ++ ".pdf")

/-- The `for file in files` loop of `api_comprimir` (src/main.py lines
130-155): validate, persist, append to `temp_inputs`, accumulate
`total_orig += os.path.getsize(input_path)` (the persisted file holds
exactly the stream bytes, so its size is `f.data.length`), then run the
pypdf transform; on success the output file exists, `total_comp` grows by
its size and the path joins `processed_files`. -/
def comprimirLoop : List CStep → CState → CState × Option AppErr
  | [], st => (st, none)
  | f :: rest, st =>
    match validar_extension f.filename [".pdf"] with
    | Except.error e => (st, some e)
    | Except.ok _ =>
      let input_path := comprimirInputPath f
      match (guardar_con_limite f.data MAX_MB_PER_FILE).err with
      | some e => (st, some e)
      | none =>
        let st1 : CState :=
          ⟨fsCreate st.fs input_path, st.created ++ [input_path],
            st.temp_inputs ++ [input_path], st.processed,
            st.total_orig + f.data.length, st.total_comp⟩
        match f.tout with
        | StepOut.readFail => (st1, some AppErr.transformFailure)
        | StepOut.writeFail =>
          (⟨fsCreate st1.fs (comprimirOutputPath f),
             st1.created ++ [comprimirOutputPath f], st1.temp_inputs,
             st1.processed, st1.total_orig, st1.total_comp⟩,
           some AppErr.transformFailure)
        | StepOut.ok csize =>
          comprimirLoop rest
            ⟨fsCreate st1.fs (comprimirOutputPath f),
              st1.created ++ [comprimirOutputPath f], st1.temp_inputs,
              st1.processed ++ [comprimirOutputPath f], st1.total_orig,
              st1.total_comp + csize⟩

/-- `final_path = os.path.join(OUTPUT_DIR, f"Pack_{uuid.uuid4().hex}.zip")`
(src/main.py line 162). -/
def comprimirZipPath (zipName : String) : String :=
  pathJoin OUTPUT_DIR ("Pack_" ++ zipName ++ ".zip")

/-- `api_comprimir` (src/main.py lines 119-182).  Empty list: 400.  Loop
failure: the handler deletes `temp_inputs + processed_files` and returns
500.  Loop success with a single processed file: that file is served, the
percentage header computed, background cleanup of
`temp_inputs + processed_files` runs.  With several files the zip archive
is created and written (`zout`); only after the `with` block completes is
`final_path` appended to `processed_files`, so a failure while writing the
archive reaches the handler with `final_path` in no deletion list. -/
def api_comprimir (files : List CStep) (zipName : String) (zout : WriteOut)
    (fs0 : List String) : CRunResult :=
  if files = [] then ⟨fs0, 400, [], [], [], none⟩
  else
    let r := comprimirLoop files ⟨fs0, [], [], [], 0, 0⟩
    match r.2 with
    | some _ =>
      ⟨borrar_archivos r.1.fs (r.1.temp_inputs ++ r.1.processed), 500,
        r.1.created, r.1.temp_inputs ++ r.1.processed, r.1.temp_inputs, none⟩
    | none =>
      if r.1.processed.length = 1 then
        let todo := r.1.temp_inputs ++ r.1.processed
        ⟨borrar_archivos r.1.fs todo, 200, r.1.created, todo, r.1.temp_inputs,
          some (porcentajeFloat r.1.total_orig r.1.total_comp)⟩
      else
        let final_path := comprimirZipPath zipName
        match zout with
        | WriteOut.ok =>
          let todo := r.1.temp_inputs ++ (r.1.processed ++ [final_path])
          ⟨borrar_archivos (fsCreate r.1.fs final_path) todo, 200,
            r.1.created ++ [final_path], todo, r.1.temp_inputs,
            some (porcentajeFloat r.1.total_orig r.1.total_comp)⟩
        | WriteOut.failCreated =>
          ⟨borrar_archivos (fsCreate r.1.fs final_path)
              (r.1.temp_inputs ++ r.1.processed), 500,
            r.1.created ++ [final_path], r.1.temp_inputs ++ r.1.processed,
            r.1.temp_inputs, none⟩
        | WriteOut.failNoFile =>
          ⟨borrar_archivos r.1.fs (r.1.temp_inputs ++ r.1.processed), 500,
            r.1.created, r.1.temp_inputs ++ r.1.processed, r.1.temp_inputs,
            none⟩

/-- One uploaded image of an `api_img2pdf` request; `name` is the uuid drawn
at line 198. -/
structure IStep where
  filename : String
  data : List Nat
  name : String
deriving DecidableEq

/-- State of the `api_img2pdf` loop: filesystem, creation trace and the
`img_paths` deletion list of line 190. -/
structure IState where
  fs : List String
  created : List String
  img_paths : List String
deriving DecidableEq

/-- `safe_filename = f"{uuid.uuid4().hex}{ext}"` (src/main.py lines
196-199): the allocated path ends in the validated extension of the
user-supplied filename. -/
def img2pdfSafePath (f : IStep) (ext : String) : String :=
  pathJoin UPLOAD_DIR (f.name ++ ext)

/-- The `for file in files` loop of `api_img2pdf` (src/main.py lines
195-201): validate against `{".jpg", ".jpeg", ".png"}`, build the path from
the uuid and the returned extension, persist, record in `img_paths`. -/
def img2pdfLoop : List IStep → IState → IState × Option AppErr
  | [], st => (st, none)
  | f :: rest, st =>
    match validar_extension f.filename [".jpg", ".jpeg", ".png"] with
    | Except.error e => (st, some e)
    | Except.ok ext =>
      let path := img2pdfSafePath f ext
      match (guardar_con_limite f.data MAX_MB_PER_FILE).err with
      | some e => (st, some e)
      | none =>
        img2pdfLoop rest
          ⟨fsCreate st.fs path, st.created ++ [path], st.img_paths ++ [path]⟩

/-- `output_path = os.path.join(OUTPUT_DIR, f"Album_{uuid.uuid4().hex}.pdf")`
(src/main.py lines 191-192). -/
def img2pdfOutputPath (outName : String) : String :=
  pathJoin OUTPUT_DIR ("Album_" ++ outName ++ ".pdf")

/-- `api_img2pdf` (src/main.py lines 185-212).  Empty list: 400.  Loop
failure or a failing `img2pdf.convert` (`convOk = false`, raising before
`open(output_path, "wb")` runs): handler deletes `img_paths`, 500.  On
success the output file is written and background cleanup of
`img_paths + [output_path]` runs.  The conversion/write step is modelled
atomically; only the ingestion-side path allocation of this endpoint is the
subject of the claims settled against it. -/
def api_img2pdf (files : List IStep) (outName : String) (convOk : Bool)
    (fs0 : List String) : RunResult :=
  if files = [] then ⟨fs0, 400, [], []⟩
  else
    let output_path := img2pdfOutputPath outName
    let r := img2pdfLoop files ⟨fs0, [], []⟩
    match r.2 with
    | some _ =>
      ⟨borrar_archivos r.1.fs r.1.img_paths, 500, r.1.created, r.1.img_paths⟩
    | none =>
      if convOk then
        let todo := r.1.img_paths ++ [output_path]
        ⟨borrar_archivos (fsCreate r.1.fs output_path) todo, 200,
          r.1.created ++ [output_path], todo⟩
      else
        ⟨borrar_archivos r.1.fs r.1.img_paths, 500, r.1.created,
          r.1.img_paths⟩

theorem guardarLoop_ok :
    ∀ (n : Nat) (data : List Nat) (limit fileSize : Nat) (buffer : List Nat),
    data.length ≤ n → fileSize + data.length ≤ limit →
    guardarLoop data limit fileSize buffer = ⟨some (buffer ++ data), none⟩ := by
  intro n
  induction n with
  | zero =>
    intro data limit fileSize buffer hlen _
    have hd : data = [] := List.length_eq_zero.mp (Nat.le_zero.mp hlen)
    subst hd
    simp [guardarLoop]
  | succ n ih =>
    intro data limit fileSize buffer hlen hle
    match data with
    | [] => simp [guardarLoop]
    | x :: xs =>
      rw [guardarLoop]
      have htake : ((x :: xs).take CHUNK_SIZE).length ≤ (x :: xs).length := by
        rw [List.length_take]; exact Nat.min_le_right _ _
      have hno : ¬ (fileSize + ((x :: xs).take CHUNK_SIZE).length >
          limit) := by omega
      rw [if_neg hno]
      have hdrop : ((x :: xs).drop CHUNK_SIZE).length ≤ n := by
        rw [List.length_drop]
        have : 0 < CHUNK_SIZE := by decide
        simp only [List.length_cons] at hlen ⊢
        omega
      have hrec := ih ((x :: xs).drop CHUNK_SIZE) limit
        (fileSize + ((x :: xs).take CHUNK_SIZE).length)
        (buffer ++ (x :: xs).take CHUNK_SIZE) hdrop (by
          rw [List.length_drop, List.length_take]
          omega)
      rw [hrec, List.append_assoc, List.take_append_drop]

theorem guardarLoop_overflow :
    ∀ (n : Nat) (data : List Nat) (limit fileSize : Nat) (buffer : List Nat),
    data.length ≤ n → fileSize ≤ limit → limit < fileSize + data.length →
    guardarLoop data limit fileSize buffer = ⟨none, some AppErr.sizeLimit⟩ := by
  intro n
  induction n with
  | zero =>
    intro data limit fileSize buffer hlen hfs hov
    have hd : data = [] := List.length_eq_zero.mp (Nat.le_zero.mp hlen)
    subst hd
    simp at hov
    omega
  | succ n ih =>
    intro data limit fileSize buffer hlen hfs hov
    match data with
    | [] => simp at hov; omega
    | x :: xs =>
      rw [guardarLoop]
      by_cases hc : fileSize + ((x :: xs).take CHUNK_SIZE).length > limit
      · rw [if_pos hc]
      · rw [if_neg hc]
        have hdrop : ((x :: xs).drop CHUNK_SIZE).length ≤ n := by
          rw [List.length_drop]
          have : 0 < CHUNK_SIZE := by decide
          simp only [List.length_cons] at hlen ⊢
          omega
        apply ih ((x :: xs).drop CHUNK_SIZE) limit _ _ hdrop (by omega)
        rw [List.length_drop, List.length_take]
        push_neg at hc
        rw [List.length_take] at hc
        omega

theorem guardar_ok_of_le (data : List Nat) (max_mb : Nat)
    (h : data.length ≤ max_mb * 1024 * 1024) :
    guardar_con_limite data max_mb = ⟨some data, none⟩ := by
  have := guardarLoop_ok data.length data (max_mb * 1024 * 1024) 0 []
    (Nat.le_refl _) (by omega)
  simpa using this

theorem guardar_err_of_gt (data : List Nat) (max_mb : Nat)
    (h : max_mb * 1024 * 1024 < data.length) :
    guardar_con_limite data max_mb = ⟨none, some AppErr.sizeLimit⟩ :=
  guardarLoop_overflow data.length data _ 0 [] (Nat.le_refl _)
    (Nat.zero_le _) (by omega)

/-- C1: for a stream strictly longer than `max_mb * 1024 * 1024` bytes,
`guardar_con_limite` raises the 413 size-limit error and the destination
path does not exist afterwards (the partial file is deleted before the
exception is raised); for a stream of at most the limit, it succeeds and the
destination contains exactly the stream's bytes. -/
theorem guardar_con_limite_spec (data : List Nat) (max_mb : Nat) :
    (max_mb * 1024 * 1024 < data.length →
      guardar_con_limite data max_mb = ⟨none, some AppErr.sizeLimit⟩) ∧
    (data.length ≤ max_mb * 1024 * 1024 →
      guardar_con_limite data max_mb = ⟨some data, none⟩) :=
  ⟨guardar_err_of_gt data max_mb, guardar_ok_of_le data max_mb⟩

/-- Witness for `guardar_con_limite_spec`: a 3-byte stream against a 0 MB
limit overflows and leaves no destination file; the same stream against a
1 MB limit is persisted byte for byte. -/
theorem guardar_con_limite_spec_witness :
    guardar_con_limite [1, 2, 3] 0 = ⟨none, some AppErr.sizeLimit⟩ ∧
    guardar_con_limite [1, 2, 3] 1 = ⟨some [1, 2, 3], none⟩ :=
  ⟨(guardar_con_limite_spec [1, 2, 3] 0).1 (by decide),
   (guardar_con_limite_spec [1, 2, 3] 1).2 (by decide)⟩

theorem not_mem_fsRemove_self (fs : List String) (p : String) :
    p ∉ fsRemove fs p := by
  intro h
  rw [fsRemove, List.mem_filter] at h
  simp at h

theorem not_mem_fsRemove_mono (fs : List String) (p q : String) (h : p ∉ fs) :
    p ∉ fsRemove fs q :=
  fun hm => h (List.mem_of_mem_filter hm)

theorem not_mem_borrar_of_not_mem (paths fs : List String) (p : String)
    (h : p ∉ fs) : p ∉ borrar_archivos fs paths := by
  induction paths generalizing fs with
  | nil => exact h
  | cons a as ih =>
    simp only [borrar_archivos, List.foldl_cons] at *
    exact ih (fsRemove fs a) (not_mem_fsRemove_mono fs p a h)

theorem not_mem_borrar_of_mem (fs paths : List String) (p : String) :
    p ∈ paths → p ∉ borrar_archivos fs paths := by
  induction paths generalizing fs with
  | nil => intro h; cases h
  | cons a as ih =>
    intro h
    simp only [borrar_archivos, List.foldl_cons]
    rcases List.mem_cons.mp h with rfl | hmem
    · exact not_mem_borrar_of_not_mem as (fsRemove fs p) p
        (not_mem_fsRemove_self fs p)
    · exact ih (fsRemove fs a) hmem

theorem unirLoop_created_eq :
    ∀ (files : List UStep) (st : RunState), st.created = st.temp_paths →
      (unirLoop files st).1.created = (unirLoop files st).1.temp_paths := by
  intro files
  induction files with
  | nil =>
    intro st h
    simpa [unirLoop] using h
  | cons f rest ih =>
    intro st h
    simp only [unirLoop]
    cases hval : validar_extension f.filename [".pdf"] with
    | error e => simpa using h
    | ok v =>
      cases hg : (guardar_con_limite f.data MAX_MB_PER_FILE).err with
      | some e => simpa using h
      | none =>
        by_cases ha : f.appendOk
        · simp only [ha, if_true]
          exact ih _ (by simp [h])
        · simp only [ha]
          simpa using h

/-- C2 counterexample: a merge request with one valid, persisted file whose
output-writing step fails after creating the output file.  The output path
was created during the request but is not in the list handed to
`borrar_archivos` (the handler deletes only `temp_paths`), and it is still
present in the final filesystem: a client-visible error leaves a file
behind. -/
theorem api_unir_write_failure_leak :
    "temp_outputs/Unido_out1.pdf" ∈
      (api_unir [⟨"a.pdf", [0], "n1", true⟩] "out1"
        WriteOut.failCreated []).created ∧
    "temp_outputs/Unido_out1.pdf" ∉
      (api_unir [⟨"a.pdf", [0], "n1", true⟩] "out1"
        WriteOut.failCreated []).cleaned ∧
    "temp_outputs/Unido_out1.pdf" ∈
      (api_unir [⟨"a.pdf", [0], "n1", true⟩] "out1"
        WriteOut.failCreated []).fs := by
  have hv : validar_extension "a.pdf" [".pdf"] = Except.ok ".pdf" := by decide
  have hg : guardar_con_limite [0] MAX_MB_PER_FILE = ⟨some [0], none⟩ :=
    guardar_ok_of_le [0] MAX_MB_PER_FILE (by decide)
  refine ⟨?_, ?_, ?_⟩ <;> simp only [api_unir, unirLoop, hv, hg] <;> decide

/-- C2 as amended: in `api_unir`, on every terminal state — success, loop
failure, and both output-write failure modes alike — every path created
during the request is handed to `borrar_archivos` and is absent from the
filesystem once cleanup has completed, with the single exception of the
output path in the state where the output-writing step fails after having
created the output file (`WriteOut.failCreated`); in particular every
persisted input path is in the cleanup list and absent afterwards even in
that state.  Whenever the write step does not fail after creating the
output, every created path without exception is cleaned and absent. -/
theorem api_unir_no_leak (files : List UStep) (outName : String)
    (wout : WriteOut) (fs0 : List String) :
    (∀ p ∈ (api_unir files outName wout fs0).created,
      (p ∈ (api_unir files outName wout fs0).cleaned ∧
        p ∉ (api_unir files outName wout fs0).fs) ∨
      (wout = WriteOut.failCreated ∧ p = unirOutputPath outName)) ∧
    (wout ≠ WriteOut.failCreated →
      ∀ p ∈ (api_unir files outName wout fs0).created,
        p ∈ (api_unir files outName wout fs0).cleaned ∧
        p ∉ (api_unir files outName wout fs0).fs) := by
  have hmain : ∀ p ∈ (api_unir files outName wout fs0).created,
      (p ∈ (api_unir files outName wout fs0).cleaned ∧
        p ∉ (api_unir files outName wout fs0).fs) ∨
      (wout = WriteOut.failCreated ∧ p = unirOutputPath outName) := by
    intro p hp
    by_cases hf : files = []
    · subst hf
      simp [api_unir] at hp
    · have hinv := unirLoop_created_eq files ⟨fs0, [], []⟩ rfl
      simp only [api_unir, if_neg hf] at hp ⊢
      cases herr : (unirLoop files ⟨fs0, [], []⟩).2 with
      | some e =>
        rw [herr] at hp
        dsimp only at hp ⊢
        exact Or.inl ⟨hinv ▸ hp, not_mem_borrar_of_mem _ _ _ (hinv ▸ hp)⟩
      | none =>
        rw [herr] at hp
        cases wout with
        | ok =>
          dsimp only at hp ⊢
          rw [hinv] at hp
          exact Or.inl ⟨hp, not_mem_borrar_of_mem _ _ _ hp⟩
        | failNoFile =>
          dsimp only at hp ⊢
          exact Or.inl ⟨hinv ▸ hp, not_mem_borrar_of_mem _ _ _ (hinv ▸ hp)⟩
        | failCreated =>
          dsimp only at hp ⊢
          rcases List.mem_append.mp hp with hc | hc
          · rw [hinv] at hc
            exact Or.inl ⟨hc, not_mem_borrar_of_mem _ _ _ hc⟩
          · exact Or.inr ⟨rfl, List.mem_singleton.mp hc⟩
  refine ⟨hmain, fun hw p hp => ?_⟩
  rcases hmain p hp with h | h
  · exact h
  · exact absurd h.1 hw

/-- Witness for `api_unir_no_leak`: a successful one-file merge leaves no
trace of the persisted input, and in a run whose output write fails after
creating the output file the persisted input is nevertheless in the cleanup
list and absent from the filesystem afterwards. -/
theorem api_unir_no_leak_witness :
    "temp_uploads/n2.pdf" ∉
      (api_unir [⟨"b.pdf", [1], "n2", true⟩] "o2" WriteOut.ok []).fs ∧
    "temp_uploads/n2.pdf" ∈
      (api_unir [⟨"b.pdf", [1], "n2", true⟩] "o2"
        WriteOut.failCreated []).cleaned ∧
    "temp_uploads/n2.pdf" ∉
      (api_unir [⟨"b.pdf", [1], "n2", true⟩] "o2"
        WriteOut.failCreated []).fs := by
  have hv : validar_extension "b.pdf" [".pdf"] = Except.ok ".pdf" := by decide
  have hg : guardar_con_limite [1] MAX_MB_PER_FILE = ⟨some [1], none⟩ :=
    guardar_ok_of_le [1] MAX_MB_PER_FILE (by decide)
  have hm1 : "temp_uploads/n2.pdf" ∈
      (api_unir [⟨"b.pdf", [1], "n2", true⟩] "o2" WriteOut.ok []).created := by
    simp only [api_unir, unirLoop, hv, hg]
    decide
  have hm2 : "temp_uploads/n2.pdf" ∈
      (api_unir [⟨"b.pdf", [1], "n2", true⟩] "o2"
        WriteOut.failCreated []).created := by
    simp only [api_unir, unirLoop, hv, hg]
    decide
  have h2 := ((api_unir_no_leak [⟨"b.pdf", [1], "n2", true⟩] "o2"
      WriteOut.ok []).2 (by decide) _ hm1).2
  have h1 := ((api_unir_no_leak [⟨"b.pdf", [1], "n2", true⟩] "o2"
      WriteOut.failCreated []).1 _ hm2).resolve_right (by decide)
  exact ⟨h2, h1.1, h1.2⟩

theorem unirLoop_single_oversize (f : UStep) (st : RunState)
    (hv : validar_extension f.filename [".pdf"] = Except.ok ".pdf")
    (h : MAX_MB_PER_FILE * 1024 * 1024 < f.data.length) :
    unirLoop [f] st = (st, some AppErr.sizeLimit) := by
  have hg := guardar_err_of_gt f.data MAX_MB_PER_FILE h
  simp only [unirLoop, hv, hg]

theorem api_unir_single_oversize (f : UStep) (outName : String)
    (wout : WriteOut) (fs0 : List String)
    (hv : validar_extension f.filename [".pdf"] = Except.ok ".pdf")
    (h : MAX_MB_PER_FILE * 1024 * 1024 < f.data.length) :
    (api_unir [f] outName wout fs0).status = 500 := by
  simp only [api_unir, if_neg (List.cons_ne_nil f []),
    unirLoop_single_oversize f _ hv h]

/-- C3: the status codes actually produced by `api_unir`.  The
`HTTPException(status_code=400)` raised by `validar_extension` for the
invalid extension `a.exe` is caught by the handler's blanket
`except Exception` and converted to a 500 JSON response, so the intended
400 never reaches the client; only the empty-file-list precheck (which
returns instead of raising) really answers 400.  Likewise the 413 of an
upload one byte over the 30 MB limit is converted to 500. -/
theorem api_unir_error_statuses :
    (api_unir [⟨"a.exe", [0], "n1", true⟩] "o" WriteOut.ok []).status = 500 ∧
    (api_unir [⟨"big.pdf", List.replicate (MAX_MB_PER_FILE * 1024 * 1024 + 1) 0,
        "n1", true⟩] "o" WriteOut.ok []).status = 500 ∧
    (api_unir [] "o" WriteOut.ok []).status = 400 := by
  refine ⟨?_, ?_, by decide⟩
  · have hv : validar_extension "a.exe" [".pdf"] =
        Except.error (AppErr.invalidExtension ".exe") := by decide
    simp only [api_unir, unirLoop, hv]
    decide
  · exact api_unir_single_oversize _ "o" WriteOut.ok [] (by decide) (by simp)

theorem isOk_exists {x : Except AppErr String} (h : x.isOk = true) :
    ∃ a, x = Except.ok a := by
  cases x with
  | ok a => exact ⟨a, rfl⟩
  | error e => simp [Except.isOk, Except.toBool] at h

/-- C4 counterexample: a compress request with two valid files whose zip
archive write fails after `zipfile.ZipFile(final_path, "w")` created the
file.  The archive path was created, a subsequent fallible step (writing
the archive members) ran and failed, yet the path is in no deletion ledger
handed to `borrar_archivos`, and it survives on disk. -/
theorem api_comprimir_zip_unrecorded :
    "temp_outputs/Pack_z1.zip" ∈
      (api_comprimir [⟨"a.pdf", [0], "i1", "o1", StepOut.ok 1⟩,
        ⟨"b.pdf", [0], "i2", "o2", StepOut.ok 1⟩] "z1"
        WriteOut.failCreated []).created ∧
    "temp_outputs/Pack_z1.zip" ∉
      (api_comprimir [⟨"a.pdf", [0], "i1", "o1", StepOut.ok 1⟩,
        ⟨"b.pdf", [0], "i2", "o2", StepOut.ok 1⟩] "z1"
        WriteOut.failCreated []).cleaned ∧
    "temp_outputs/Pack_z1.zip" ∈
      (api_comprimir [⟨"a.pdf", [0], "i1", "o1", StepOut.ok 1⟩,
        ⟨"b.pdf", [0], "i2", "o2", StepOut.ok 1⟩] "z1"
        WriteOut.failCreated []).fs := by
  have hv1 : validar_extension "a.pdf" [".pdf"] = Except.ok ".pdf" := by decide
  have hv2 : validar_extension "b.pdf" [".pdf"] = Except.ok ".pdf" := by decide
  have hg : guardar_con_limite [0] MAX_MB_PER_FILE = ⟨some [0], none⟩ :=
    guardar_ok_of_le [0] MAX_MB_PER_FILE (by decide)
  refine ⟨?_, ?_, ?_⟩ <;>
    simp only [api_comprimir, comprimirLoop, hv1, hv2, hg] <;> decide

theorem comprimirLoop_created_sub :
    ∀ (files : List CStep), (∀ f ∈ files, f.tout ≠ StepOut.writeFail) →
    ∀ st : CState,
    (∀ p, p ∈ st.created → p ∈ st.temp_inputs ++ st.processed) →
    ∀ p, p ∈ (comprimirLoop files st).1.created →
      p ∈ (comprimirLoop files st).1.temp_inputs ++
        (comprimirLoop files st).1.processed := by
  intro files
  induction files with
  | nil =>
    intro _ st hst p
    exact hst p
  | cons f rest ih =>
    intro hW st hst p
    simp only [comprimirLoop]
    cases hval : validar_extension f.filename [".pdf"] with
    | error e => exact hst p
    | ok v =>
      cases hg : (guardar_con_limite f.data MAX_MB_PER_FILE).err with
      | some e => exact hst p
      | none =>
        cases htout : f.tout with
        | readFail =>
          intro hp
          dsimp only at hp ⊢
          simp only [List.mem_append, List.mem_singleton] at hp ⊢
          rcases hp with hc | hc
          · have := hst p hc
            simp only [List.mem_append] at this
            tauto
          · tauto
        | writeFail =>
          exact absurd htout (hW f (List.mem_cons_self f rest))
        | ok csize =>
          apply ih (fun g hg2 => hW g (List.mem_cons_of_mem f hg2))
          intro q hq
          dsimp only at hq ⊢
          simp only [List.mem_append, List.mem_singleton] at hq ⊢
          rcases hq with (hc | hc) | hc
          · have := hst q hc
            simp only [List.mem_append] at this
            tauto
          · tauto
          · tauto

/-- C4 as amended: in `api_comprimir`, every persisted input path is
recorded in `temp_inputs` directly after its creation and before any
subsequent fallible step, so it is in the deletion ledger handed to
`borrar_archivos` in every terminal state; ledger entries are consumed only
by that cleanup call, once.  Created output paths, however, are recorded
only after further fallible work (size query / archive writing) has
completed, so the full trace of created paths is covered by the ledger only
when no output-writing step fails after creating its file. -/
theorem api_comprimir_ledger (files : List CStep) (zipName : String)
    (zout : WriteOut) (fs0 : List String) :
    (∀ p ∈ (api_comprimir files zipName zout fs0).inputs,
        p ∈ (api_comprimir files zipName zout fs0).cleaned) ∧
    ((∀ f ∈ files, f.tout ≠ StepOut.writeFail) →
      zout ≠ WriteOut.failCreated →
      ∀ p ∈ (api_comprimir files zipName zout fs0).created,
        p ∈ (api_comprimir files zipName zout fs0).cleaned) := by
  by_cases hf : files = []
  · subst hf
    constructor
    · intro p hp
      simp [api_comprimir] at hp
    · intro _ _ p hp
      simp [api_comprimir] at hp
  · have hsub0 : ∀ p : String, p ∈ ([] : List String) →
        p ∈ ([] : List String) ++ ([] : List String) := by
      intro p hp
      cases hp
    constructor
    · intro p hp
      simp only [api_comprimir, if_neg hf] at hp ⊢
      cases herr : (comprimirLoop files ⟨fs0, [], [], [], 0, 0⟩).2 with
      | some e =>
        rw [herr] at hp
        dsimp only at hp ⊢
        exact List.mem_append_left _ hp
      | none =>
        rw [herr] at hp
        dsimp only at hp ⊢
        by_cases h1 :
            (comprimirLoop files ⟨fs0, [], [], [], 0, 0⟩).1.processed.length = 1
        · rw [if_pos h1] at hp ⊢
          exact List.mem_append_left _ hp
        · rw [if_neg h1] at hp ⊢
          cases zout <;> dsimp only at hp ⊢ <;> exact List.mem_append_left _ hp
    · intro hW hz p hp
      have hsub := comprimirLoop_created_sub files hW ⟨fs0, [], [], [], 0, 0⟩ hsub0
      simp only [api_comprimir, if_neg hf] at hp ⊢
      cases herr : (comprimirLoop files ⟨fs0, [], [], [], 0, 0⟩).2 with
      | some e =>
        rw [herr] at hp
        dsimp only at hp ⊢
        exact hsub p hp
      | none =>
        rw [herr] at hp
        dsimp only at hp ⊢
        by_cases h1 :
            (comprimirLoop files ⟨fs0, [], [], [], 0, 0⟩).1.processed.length = 1
        · rw [if_pos h1] at hp ⊢
          exact hsub p hp
        · rw [if_neg h1] at hp ⊢
          cases zout with
          | ok =>
            dsimp only at hp ⊢
            simp only [List.mem_append, List.mem_singleton] at hp ⊢
            rcases hp with hc | hc
            · have := hsub p hc
              simp only [List.mem_append] at this
              tauto
            · tauto
          | failCreated => exact absurd rfl hz
          | failNoFile =>
            dsimp only at hp ⊢
            exact hsub p hp

/-- Witness for `api_comprimir_ledger`: in a successful one-file compress
run, the persisted input is in the cleanup ledger. -/
theorem api_comprimir_ledger_witness :
    "temp_uploads/i9.pdf" ∈
      (api_comprimir [⟨"a.pdf", [0], "i9", "o9", StepOut.ok 1⟩] "z9"
        WriteOut.ok []).cleaned := by
  apply (api_comprimir_ledger [⟨"a.pdf", [0], "i9", "o9", StepOut.ok 1⟩] "z9"
    WriteOut.ok []).2 (by decide) (by decide) "temp_uploads/i9.pdf"
  have hv : validar_extension "a.pdf" [".pdf"] = Except.ok ".pdf" := by decide
  have hg : guardar_con_limite [0] MAX_MB_PER_FILE = ⟨some [0], none⟩ :=
    guardar_ok_of_le [0] MAX_MB_PER_FILE (by decide)
  simp only [api_comprimir, comprimirLoop, hv, hg]
  decide

theorem unirLoop_prefix_invalid (bad : UStep) (rest : List UStep)
    (hbad : (validar_extension bad.filename [".pdf"]).isOk = false) :
    ∀ (good : List UStep),
    (∀ f ∈ good, (validar_extension f.filename [".pdf"]).isOk = true ∧
      f.data.length ≤ MAX_MB_PER_FILE * 1024 * 1024 ∧ f.appendOk = true) →
    ∀ st : RunState, ∃ (e : AppErr) (fs2 : List String),
      unirLoop (good ++ bad :: rest) st =
        (⟨fs2, st.temp_paths ++ good.map unirSafePath,
          st.created ++ good.map unirSafePath⟩, some e) := by
  intro good
  induction good with
  | nil =>
    intro _ st
    cases hval : validar_extension bad.filename [".pdf"] with
    | ok v =>
      rw [hval] at hbad
      simp [Except.isOk, Except.toBool] at hbad
    | error e =>
      refine ⟨e, st.fs, ?_⟩
      simp only [List.nil_append, unirLoop, hval, List.map_nil, List.append_nil]
  | cons f good ih =>
    intro hok st
    obtain ⟨hvOk, hlen, hap⟩ := hok f (List.mem_cons_self f good)
    obtain ⟨v, hv⟩ := isOk_exists hvOk
    have hg := guardar_ok_of_le f.data MAX_MB_PER_FILE hlen
    obtain ⟨e, fs2, hrec⟩ :=
      ih (fun g hg2 => hok g (List.mem_cons_of_mem f hg2))
        ⟨fsCreate st.fs (unirSafePath f), st.temp_paths ++ [unirSafePath f],
          st.created ++ [unirSafePath f]⟩
    refine ⟨e, fs2, ?_⟩
    simp only [List.cons_append, unirLoop, hv, hg, hap, if_true]
    refine Eq.trans hrec ?_
    simp [List.append_assoc]

/-- C5 as amended: `api_unir` validates extensions per file, interleaved
with persistence, not in a separate phase before ingestion.  If the files
declared before the first invalid-extension file are all valid, within the
size limit and mergeable, the request fails (status 500) with exactly those
earlier files having been persisted — so artifacts are created before a
later file's violation is detected — and the failure-path cleanup then
removes every one of them from the filesystem. -/
theorem api_unir_interleaved_validation (good : List UStep) (bad : UStep)
    (rest : List UStep) (outName : String) (wout : WriteOut)
    (fs0 : List String)
    (hgood : ∀ f ∈ good, (validar_extension f.filename [".pdf"]).isOk = true ∧
      f.data.length ≤ MAX_MB_PER_FILE * 1024 * 1024 ∧ f.appendOk = true)
    (hbad : (validar_extension bad.filename [".pdf"]).isOk = false) :
    (api_unir (good ++ bad :: rest) outName wout fs0).status = 500 ∧
    (api_unir (good ++ bad :: rest) outName wout fs0).created =
      good.map unirSafePath ∧
    ∀ p ∈ (api_unir (good ++ bad :: rest) outName wout fs0).created,
      p ∉ (api_unir (good ++ bad :: rest) outName wout fs0).fs := by
  obtain ⟨e, fs2, hrun⟩ :=
    unirLoop_prefix_invalid bad rest hbad good hgood ⟨fs0, [], []⟩
  have hne : good ++ bad :: rest ≠ [] := by
    intro hc
    exact absurd (List.append_eq_nil.mp hc).2 (List.cons_ne_nil _ _)
  have hres : api_unir (good ++ bad :: rest) outName wout fs0 =
      ⟨borrar_archivos fs2 (good.map unirSafePath), 500,
        good.map unirSafePath, good.map unirSafePath⟩ := by
    simp only [api_unir, if_neg hne, hrun, List.nil_append]
  rw [hres]
  refine ⟨rfl, rfl, ?_⟩
  intro p hp
  exact not_mem_borrar_of_mem _ _ _ hp

/-- C5 counterexample: a merge request of a valid `a.pdf` followed by an
invalid `b.exe` fails, but the first file was persisted before the second
file's extension violation was detected — the request did not reach its
terminal state with "no artifacts yet created". -/
theorem api_unir_artifact_before_violation :
    (api_unir [⟨"a.pdf", [0], "n1", true⟩, ⟨"b.exe", [0], "n2", true⟩] "o"
      WriteOut.ok []).status = 500 ∧
    (api_unir [⟨"a.pdf", [0], "n1", true⟩, ⟨"b.exe", [0], "n2", true⟩] "o"
      WriteOut.ok []).created = ["temp_uploads/n1.pdf"] := by
  have hv1 : validar_extension "a.pdf" [".pdf"] = Except.ok ".pdf" := by decide
  have hv2 : validar_extension "b.exe" [".pdf"] =
      Except.error (AppErr.invalidExtension ".exe") := by decide
  have hg : guardar_con_limite [0] MAX_MB_PER_FILE = ⟨some [0], none⟩ :=
    guardar_ok_of_le [0] MAX_MB_PER_FILE (by decide)
  refine ⟨?_, ?_⟩ <;> simp only [api_unir, unirLoop, hv1, hv2, hg] <;> decide

/-- Witness for `api_unir_interleaved_validation` at a concrete two-file
request. -/
theorem api_unir_interleaved_validation_witness :
    (api_unir [⟨"g.pdf", [2], "m1", true⟩, ⟨"b.exe", [3], "m2", true⟩] "w5"
      WriteOut.ok []).status = 500 ∧
    "temp_uploads/m1.pdf" ∉
      (api_unir [⟨"g.pdf", [2], "m1", true⟩, ⟨"b.exe", [3], "m2", true⟩] "w5"
        WriteOut.ok []).fs := by
  have h := api_unir_interleaved_validation [⟨"g.pdf", [2], "m1", true⟩]
    ⟨"b.exe", [3], "m2", true⟩ [] "w5" WriteOut.ok [] (by decide) (by decide)
  refine ⟨h.1, ?_⟩
  apply h.2.2
  rw [h.2.1]
  decide

theorem unirLoop_filename_invariant (fs1 fs2 : List UStep)
    (h : List.Forall₂ (fun a b => a.data = b.data ∧ a.name = b.name ∧
      a.appendOk = b.appendOk ∧
      (validar_extension a.filename [".pdf"]).isOk = true ∧
      (validar_extension b.filename [".pdf"]).isOk = true) fs1 fs2) :
    ∀ st : RunState, unirLoop fs1 st = unirLoop fs2 st := by
  induction h with
  | nil => intro st; rfl
  | @cons a b l1 l2 hab hrest ih =>
    intro st
    obtain ⟨hdata, hname, hap, hok1, hok2⟩ := hab
    obtain ⟨v1, hv1⟩ := isOk_exists hok1
    obtain ⟨v2, hv2⟩ := isOk_exists hok2
    have hsp : unirSafePath a = unirSafePath b := by
      rw [unirSafePath, unirSafePath, hname]
    simp only [unirLoop, hv1, hv2]
    rw [hdata, hsp, hap]
    cases hg : (guardar_con_limite b.data MAX_MB_PER_FILE).err with
    | some e => simp only [hg]
    | none =>
      simp only [hg]
      by_cases hb : b.appendOk
      · simp only [hb, if_true]
        exact ih _
      · rw [Bool.not_eq_true] at hb
        simp [hb]

theorem img2pdfLoop_suffix_invariant (fs1 fs2 : List IStep)
    (h : List.Forall₂ (fun a b => a.data = b.data ∧ a.name = b.name ∧
      validar_extension a.filename [".jpg", ".jpeg", ".png"] =
        validar_extension b.filename [".jpg", ".jpeg", ".png"] ∧
      (validar_extension a.filename [".jpg", ".jpeg", ".png"]).isOk = true)
      fs1 fs2) :
    ∀ st : IState, img2pdfLoop fs1 st = img2pdfLoop fs2 st := by
  induction h with
  | nil => intro st; rfl
  | @cons a b l1 l2 hab hrest ih =>
    intro st
    obtain ⟨hdata, hname, hval, hok⟩ := hab
    obtain ⟨v, hv1⟩ := isOk_exists hok
    have hv2 : validar_extension b.filename [".jpg", ".jpeg", ".png"] =
        Except.ok v := by
      rw [← hval]
      exact hv1
    have hsp : img2pdfSafePath a v = img2pdfSafePath b v := by
      rw [img2pdfSafePath, img2pdfSafePath, hname]
    simp only [img2pdfLoop, hv1, hv2]
    rw [hdata, hsp]
    cases hg : (guardar_con_limite b.data MAX_MB_PER_FILE).err with
    | some e => simp only [hg]
    | none =>
      simp only [hg]
      exact ih _

/-- C6 counterexample: in `api_img2pdf` the allocated workspace path is not
built from the random identifier and a canonical extension alone — the
validated extension of the user-supplied filename flows into it.  Two runs
that differ only in the (policy-accepted) declared filename, with identical
random identifiers, allocate different paths (`temp_uploads/N.jpg` vs
`temp_uploads/N.png`), i.e. paths differing in more than the random
identifier. -/
theorem api_img2pdf_path_from_filename :
    validar_extension "a.jpg" [".jpg", ".jpeg", ".png"] = Except.ok ".jpg" ∧
    validar_extension "a.png" [".jpg", ".jpeg", ".png"] = Except.ok ".png" ∧
    (api_img2pdf [⟨"a.jpg", [0], "N"⟩] "out" true []).created ≠
      (api_img2pdf [⟨"a.png", [0], "N"⟩] "out" true []).created := by
  have hv1 : validar_extension "a.jpg" [".jpg", ".jpeg", ".png"] =
      Except.ok ".jpg" := by decide
  have hv2 : validar_extension "a.png" [".jpg", ".jpeg", ".png"] =
      Except.ok ".png" := by decide
  have hg : guardar_con_limite [0] MAX_MB_PER_FILE = ⟨some [0], none⟩ :=
    guardar_ok_of_le [0] MAX_MB_PER_FILE (by decide)
  refine ⟨hv1, hv2, ?_⟩
  simp only [api_img2pdf, img2pdfLoop, hv1, hv2, hg]
  decide

/-- C6 as amended: workspace paths never depend on the user-supplied
filename beyond its validated extension.  In `api_unir` (uuid + canonical
`.pdf`) two runs agreeing on stream data, drawn identifiers and collaborator
outcomes, with any policy-accepted filenames, are identical observation for
observation; in `api_img2pdf` (uuid + validated extension of the filename)
the same holds once the validated extensions also agree. -/
theorem api_path_allocation_independence :
    (∀ (files1 files2 : List UStep) (outName : String) (wout : WriteOut)
      (fs0 : List String),
      List.Forall₂ (fun a b => a.data = b.data ∧ a.name = b.name ∧
        a.appendOk = b.appendOk ∧
        (validar_extension a.filename [".pdf"]).isOk = true ∧
        (validar_extension b.filename [".pdf"]).isOk = true) files1 files2 →
      api_unir files1 outName wout fs0 = api_unir files2 outName wout fs0) ∧
    (∀ (files1 files2 : List IStep) (outName : String) (convOk : Bool)
      (fs0 : List String),
      List.Forall₂ (fun a b => a.data = b.data ∧ a.name = b.name ∧
        validar_extension a.filename [".jpg", ".jpeg", ".png"] =
          validar_extension b.filename [".jpg", ".jpeg", ".png"] ∧
        (validar_extension a.filename [".jpg", ".jpeg", ".png"]).isOk = true)
        files1 files2 →
      api_img2pdf files1 outName convOk fs0 =
        api_img2pdf files2 outName convOk fs0) := by
  constructor
  · intro files1 files2 outName wout fs0 h
    cases h with
    | nil => rfl
    | @cons a b l1 l2 hab hrest =>
      simp only [api_unir]
      rw [if_neg (List.cons_ne_nil a l1), if_neg (List.cons_ne_nil b l2),
        unirLoop_filename_invariant (a :: l1) (b :: l2)
          (List.Forall₂.cons hab hrest) ⟨fs0, [], []⟩]
  · intro files1 files2 outName convOk fs0 h
    cases h with
    | nil => rfl
    | @cons a b l1 l2 hab hrest =>
      simp only [api_img2pdf]
      rw [if_neg (List.cons_ne_nil a l1), if_neg (List.cons_ne_nil b l2),
        img2pdfLoop_suffix_invariant (a :: l1) (b :: l2)
          (List.Forall₂.cons hab hrest) ⟨fs0, [], []⟩]

/-- Witness for `api_path_allocation_independence`: concrete runs differing
only in accepted filenames coincide. -/
theorem api_path_allocation_independence_witness :
    api_unir [⟨"x.pdf", [4], "k1", true⟩] "w6" WriteOut.ok [] =
      api_unir [⟨"y.pdf", [4], "k1", true⟩] "w6" WriteOut.ok [] ∧
    api_img2pdf [⟨"u.jpg", [4], "k2"⟩] "w7" true [] =
      api_img2pdf [⟨"v.jpg", [4], "k2"⟩] "w7" true [] :=
  ⟨api_path_allocation_independence.1 [⟨"x.pdf", [4], "k1", true⟩]
      [⟨"y.pdf", [4], "k1", true⟩] "w6" WriteOut.ok []
      (List.Forall₂.cons (by decide) List.Forall₂.nil),
   api_path_allocation_independence.2 [⟨"u.jpg", [4], "k2"⟩]
      [⟨"v.jpg", [4], "k2"⟩] "w7" true []
      (List.Forall₂.cons (by decide) List.Forall₂.nil)⟩

/-- C7: the extract-range operation on a document with `pages.length` pages
and 1-indexed inclusive bounds fails with the invalid-range error exactly
when `inicio < 1` or `fin > total_pages` or `inicio > fin`; otherwise it
succeeds and the output consists of exactly the pages `inicio..fin`, i.e.
`fin - inicio + 1` pages, the j-th output page being input page
`inicio + j` (1-indexed). -/
theorem api_extraer_rango_spec (pages : List Nat) (inicio fin : Int) :
    (api_extraer_rango pages inicio fin = Except.error AppErr.invalidRange ↔
      (inicio < 1 ∨ fin > (pages.length : Int) ∨ inicio > fin)) ∧
    (∀ out, api_extraer_rango pages inicio fin = Except.ok out →
      out.length = (fin - inicio + 1).toNat ∧
      ∀ j : Nat, out[j]? =
        if j < (fin - inicio + 1).toNat then pages[(inicio - 1).toNat + j]?
        else none) := by
  by_cases hc : inicio < 1 ∨ fin > (pages.length : Int) ∨ inicio > fin
  · constructor
    · simp [api_extraer_rango, hc]
    · intro out hout
      simp [api_extraer_rango, hc] at hout
  · constructor
    · simp [api_extraer_rango, hc]
    · intro out hout
      simp only [api_extraer_rango, if_neg hc] at hout
      injection hout with hout
      subst hout
      push_neg at hc
      obtain ⟨h1, h2, h3⟩ := hc
      constructor
      · rw [List.length_take, List.length_drop]
        omega
      · intro j
        by_cases hj : j < (fin - inicio + 1).toNat
        · rw [if_pos hj, List.getElem?_take_of_lt hj, List.getElem?_drop]
        · rw [if_neg hj]
          apply List.getElem?_eq_none
          rw [List.length_take, List.length_drop]
          omega

/-- Witness for `api_extraer_rango_spec` on the 5-page document of the
spec: range (3,2) and range (6,6) fail, range (1,5) succeeds returning all
5 pages. -/
theorem api_extraer_rango_spec_witness :
    api_extraer_rango [10, 20, 30, 40, 50] 3 2 =
      Except.error AppErr.invalidRange ∧
    api_extraer_rango [10, 20, 30, 40, 50] 6 6 =
      Except.error AppErr.invalidRange ∧
    ([10, 20, 30, 40, 50] : List Nat).length = ((5 : Int) - 1 + 1).toNat ∧
    api_extraer_rango [10, 20, 30, 40, 50] 1 5 =
      Except.ok [10, 20, 30, 40, 50] :=
  ⟨(api_extraer_rango_spec [10, 20, 30, 40, 50] 3 2).1.mpr
      (Or.inr (Or.inr (by decide))),
   (api_extraer_rango_spec [10, 20, 30, 40, 50] 6 6).1.mpr
      (Or.inr (Or.inl (by decide))),
   ((api_extraer_rango_spec [10, 20, 30, 40, 50] 1 5).2
      [10, 20, 30, 40, 50] (by decide)).1,
   by decide⟩

theorem comprimirLoop_all_ok :
    ∀ (files : List CStep),
    (∀ f ∈ files, (validar_extension f.filename [".pdf"]).isOk = true ∧
      f.data.length ≤ MAX_MB_PER_FILE * 1024 * 1024 ∧
      ∃ n, f.tout = StepOut.ok n) →
    ∀ st : CState,
    (comprimirLoop files st).2 = none ∧
    (comprimirLoop files st).1.total_orig =
      st.total_orig + (files.map fun f => f.data.length).sum ∧
    (comprimirLoop files st).1.total_comp =
      st.total_comp + (files.map fun f => compSizeOf f.tout).sum ∧
    (comprimirLoop files st).1.processed.length =
      st.processed.length + files.length := by
  intro files
  induction files with
  | nil =>
    intro _ st
    simp [comprimirLoop]
  | cons f rest ih =>
    intro hok st
    obtain ⟨hvOk, hlen, n, hn⟩ := hok f (List.mem_cons_self f rest)
    obtain ⟨v, hv⟩ := isOk_exists hvOk
    have hg := guardar_ok_of_le f.data MAX_MB_PER_FILE hlen
    simp only [comprimirLoop, hv, hg, hn]
    have hr := ih (fun g hg2 => hok g (List.mem_cons_of_mem f hg2))
      ⟨fsCreate (fsCreate st.fs (comprimirInputPath f)) (comprimirOutputPath f),
        (st.created ++ [comprimirInputPath f]) ++ [comprimirOutputPath f],
        st.temp_inputs ++ [comprimirInputPath f],
        st.processed ++ [comprimirOutputPath f],
        st.total_orig + f.data.length, st.total_comp + n⟩
    obtain ⟨he, ho, hc, hp⟩ := hr
    refine ⟨he, ?_, ?_, ?_⟩
    · rw [ho]
      simp only [List.map_cons, List.sum_cons]
      omega
    · rw [hc]
      simp only [List.map_cons, List.sum_cons, hn, compSizeOf]
      omega
    · rw [hp]
      simp only [List.length_cons, List.length_append, List.length_cons,
        List.length_nil]
      omega

theorem porcentajeFloat_zero_orig (c : Nat) : porcentajeFloat 0 c = 0 := by
  simp [porcentajeFloat]

/-- C8 as amended: the savings percentage reported by `api_comprimir` in
the `X-Savings-Percent` header is `int((ahorro / total_orig) * 100)`
computed in IEEE-754 binary64 arithmetic and truncated toward zero, where
`total_orig` and `total_comp` are the accumulated input and output byte
totals of the request; it equals `0` when `total_orig == 0`.  Because of
binary64 rounding this can fall below the exact
`floor((orig - compressed) / orig * 100)`. -/
theorem api_comprimir_percent (files : List CStep) (zipName : String)
    (zout : WriteOut) (fs0 : List String) (hne : files ≠ [])
    (hok : ∀ f ∈ files, (validar_extension f.filename [".pdf"]).isOk = true ∧
      f.data.length ≤ MAX_MB_PER_FILE * 1024 * 1024 ∧
      ∃ n, f.tout = StepOut.ok n)
    (hz : zout = WriteOut.ok ∨ files.length = 1) :
    (api_comprimir files zipName zout fs0).percent =
      some (porcentajeFloat ((files.map fun f => f.data.length).sum)
        ((files.map fun f => compSizeOf f.tout).sum)) ∧
    ((files.map fun f => f.data.length).sum = 0 →
      (api_comprimir files zipName zout fs0).percent = some 0) := by
  obtain ⟨herr, horig, hcomp, hlen⟩ :=
    comprimirLoop_all_ok files hok ⟨fs0, [], [], [], 0, 0⟩
  have hmain : (api_comprimir files zipName zout fs0).percent =
      some (porcentajeFloat ((files.map fun f => f.data.length).sum)
        ((files.map fun f => compSizeOf f.tout).sum)) := by
    simp only [api_comprimir, if_neg hne]
    rw [herr]
    by_cases hone :
        (comprimirLoop files ⟨fs0, [], [], [], 0, 0⟩).1.processed.length = 1
    · rw [if_pos hone]
      dsimp only
      rw [horig, hcomp]
      simp
    · rw [if_neg hone]
      rcases hz with rfl | h1
      · dsimp only
        rw [horig, hcomp]
        simp
      · exact absurd (by rw [hlen]; simpa using h1) hone
  refine ⟨hmain, fun h0 => ?_⟩
  rw [hmain, h0, porcentajeFloat_zero_orig]

/-- C8 counterexample: a one-file compress run with a 100-byte input and a
71-byte compressed output.  The exact savings fraction is 29/100, so the
claimed `floor((orig - compressed) / orig * 100)` is 29, but the code's
`int((29 / 100) * 100)` in binary64 arithmetic evaluates to 28 (the double
nearest 29/100 is slightly below it, and scaling by 100 then truncating
toward zero loses the last unit). -/
theorem api_comprimir_percent_not_floor :
    (api_comprimir [⟨"a.pdf", List.replicate 100 0, "i1", "o1",
      StepOut.ok 71⟩] "z" WriteOut.ok []).percent = some 28 ∧
    (((100 : Nat) - 71) * 100) / 100 = 29 ∧
    (28 : Int) ≠ 29 := by
  have hv : validar_extension "a.pdf" [".pdf"] = Except.ok ".pdf" := by decide
  have hg : guardar_con_limite (List.replicate 100 0) MAX_MB_PER_FILE =
      ⟨some (List.replicate 100 0), none⟩ :=
    guardar_ok_of_le (List.replicate 100 0) MAX_MB_PER_FILE (by decide)
  refine ⟨?_, by decide, by decide⟩
  simp only [api_comprimir, comprimirLoop, hv, hg]
  decide

/-- Witness for `api_comprimir_percent`: a 2-byte input compressed to 1
byte reports 50 percent. -/
theorem api_comprimir_percent_witness :
    (api_comprimir [⟨"a.pdf", [5, 6], "w1", "w2", StepOut.ok 1⟩] "wz"
      WriteOut.ok []).percent = some 50 := by
  have h := api_comprimir_percent [⟨"a.pdf", [5, 6], "w1", "w2",
    StepOut.ok 1⟩] "wz" WriteOut.ok [] (by decide)
    (fun f hf => by
      rcases List.mem_singleton.mp hf with rfl
      exact ⟨by decide, by decide, 1, rfl⟩)
    (Or.inl rfl)
  rw [h.1]
  decide

/-- C9: `validar_extension` extracts the lowercased final suffix of the
filename and succeeds returning exactly that suffix precisely when the
suffix is in the allowed set, failing with the invalid-extension error
carrying that suffix otherwise; `"a.PDF"` against `{".pdf"}` succeeds
case-insensitively and `"a.exe"` fails.  The function is pure, so neither
outcome has a side effect. -/
theorem validar_extension_spec :
    (∀ (f : String) (s : List String),
      (validar_extension f s = Except.ok (lowerExt f) ↔ lowerExt f ∈ s) ∧
      (validar_extension f s = Except.ok (lowerExt f) ∨
        validar_extension f s =
          Except.error (AppErr.invalidExtension (lowerExt f)))) ∧
    validar_extension "a.PDF" [".pdf"] = Except.ok ".pdf" ∧
    validar_extension "a.exe" [".pdf"] =
      Except.error (AppErr.invalidExtension ".exe") := by
  refine ⟨fun f s => ?_, by decide, by decide⟩
  by_cases hm : lowerExt f ∈ s
  · simp [validar_extension, hm]
  · simp [validar_extension, hm]

/-- C10: a filename whose `os.path.splitext` suffix is empty — one with no
dot, such as `"document"`, or a bare leading-dot name such as `".pdf"` — is
rejected by `validar_extension` with the invalid-extension error for every
allowed set occurring in the program (`ALLOWED_EXTENSIONS`, `{".pdf"}` and
`{".jpg", ".jpeg", ".png"}`), since all their members start with a dot; in
`api_unir` such an upload is rejected before persistence, so no path is
ever created for it. -/
theorem empty_suffix_always_rejected (f : String) (h : splitextExt f = "") :
    validar_extension f ALLOWED_EXTENSIONS =
      Except.error (AppErr.invalidExtension "") ∧
    validar_extension f [".pdf"] =
      Except.error (AppErr.invalidExtension "") ∧
    validar_extension f [".jpg", ".jpeg", ".png"] =
      Except.error (AppErr.invalidExtension "") ∧
    ∀ (data : List Nat) (name : String) (ap : Bool) (outName : String)
      (wout : WriteOut) (fs0 : List String),
      (api_unir [⟨f, data, name, ap⟩] outName wout fs0).created = [] := by
  have hl : lowerExt f = "" := by
    rw [lowerExt, h]
    rfl
  have hval : ∀ S : List String, ("" : String) ∉ S →
      validar_extension f S = Except.error (AppErr.invalidExtension "") := by
    intro S hS
    simp [validar_extension, hl, hS]
  refine ⟨hval _ (by decide), hval _ (by decide), hval _ (by decide), ?_⟩
  intro data name ap outName wout fs0
  have hv := hval [".pdf"] (by decide)
  simp only [api_unir,
    if_neg (List.cons_ne_nil (⟨f, data, name, ap⟩ : UStep) []), unirLoop, hv]

/-- Witness for `empty_suffix_always_rejected` at `".pdf"` and
`"document"`. -/
theorem empty_suffix_always_rejected_witness :
    splitextExt ".pdf" = "" ∧
    splitextExt "document" = "" ∧
    validar_extension ".pdf" ALLOWED_EXTENSIONS =
      Except.error (AppErr.invalidExtension "") ∧
    (api_unir [⟨"document", [7], "n7", true⟩] "o7" WriteOut.ok []).created =
      [] :=
  ⟨by decide, by decide,
   (empty_suffix_always_rejected ".pdf" (by decide)).1,
   (empty_suffix_always_rejected "document" (by decide)).2.2.2 [7] "n7" true
     "o7" WriteOut.ok []⟩
